import Mathlib

set_option maxHeartbeats 1000000
set_option maxRecDepth 10000

/- Shallow embedding of the trademark-research module
   (backend/trademark_research.py).  Python strings are modelled through
   their character lists; lower/strip/title/slice and the regular
   expressions used by the extractors are reimplemented character-wise
   over ASCII text, following the source patterns literally. -/

/-! ## Character and string primitives -/

def ascUpper (c : Char) : Bool := 'A' ≤ c && c ≤ 'Z'

def ascLower (c : Char) : Bool := 'a' ≤ c && c ≤ 'z'

def ascAlpha (c : Char) : Bool := ascUpper c || ascLower c

def ascDigit (c : Char) : Bool := '0' ≤ c && c ≤ '9'

/-- A regex word character, the \w class: letters, digits, underscore. -/
def wordChar (c : Char) : Bool := ascAlpha c || ascDigit c || c == '_'

/-- The Python \s class for ASCII text. -/
def pySpace (c : Char) : Bool :=
  c == ' ' || c == '\t' || c == '\n' || c == '\r' || c == '\x0b' || c == '\x0c'

/-- Case-sensitive prefix test on character lists. -/
def prefAt : List Char → List Char → Bool
  | [], _ => true
  | _ :: _, [] => false
  | a :: as, b :: bs => a == b && prefAt as bs

/-- Case-insensitive prefix test (regex IGNORECASE on ASCII). -/
def prefAtCI : List Char → List Char → Bool
  | [], _ => true
  | _ :: _, [] => false
  | a :: as, b :: bs => a.toLower == b.toLower && prefAtCI as bs

/-- Substring test on character lists; the Python expression a in b. -/
def subIn : List Char → List Char → Bool
  | n, [] => prefAt n []
  | n, c :: t => prefAt n (c :: t) || subIn n t

/-- The Python membership test needle in hay on strings. -/
def strIn (needle hay : String) : Bool := subIn needle.toList hay.toList

/-- Python str.lower for ASCII text. -/
def pyLower (s : String) : String := ⟨s.toList.map Char.toLower⟩

/-- Python slicing s[:n] (by characters). -/
def pyTake (s : String) (n : Nat) : String := ⟨s.toList.take n⟩

/-- Python slicing s[:-1]. -/
def strDropLast (s : String) : String := ⟨s.toList.dropLast⟩

/-- Python str.endswith. -/
def pyEndsWith (s suf : String) : Bool := prefAt suf.toList.reverse s.toList.reverse

/-- Python str.strip (whitespace on both ends). -/
def stripL (l : List Char) : List Char :=
  ((l.dropWhile pySpace).reverse.dropWhile pySpace).reverse

def pyStrip (s : String) : String := ⟨stripL s.toList⟩

/-- Python str.title: a letter after a non-letter is upper-cased, letters
    after letters are lower-cased. -/
def titleL : Bool → List Char → List Char
  | _, [] => []
  | prevAlpha, c :: t =>
      (if ascAlpha c then (if prevAlpha then c.toLower else c.toUpper) else c) ::
        titleL (ascAlpha c) t

def pyTitle (s : String) : String := ⟨titleL false s.toList⟩

/-- Python str.replace(old, new, 1): replace the first occurrence only. -/
def replaceFirstL (old new : List Char) : List Char → List Char
  | [] => []
  | c :: t =>
      if prefAt old (c :: t) then new ++ (c :: t).drop old.length
      else c :: replaceFirstL old new t

def pyReplaceFirst (s old new : String) : String :=
  ⟨replaceFirstL old.toList new.toList s.toList⟩

/-- Python url.split with a single slash separator. -/
def splitSlash : List Char → List (List Char)
  | [] => [[]]
  | '/' :: t => [] :: splitSlash t
  | c :: t =>
      match splitSlash t with
      | [] => [[c]]
      | x :: xs => (c :: x) :: xs

/-! ## Conflict record types (the dataclasses of the source) -/

structure TrademarkConflict where
  name : String
  source : String
  conflict_type : String
  application_number : Option String
  status : Option String
  owner : Option String
  class_number : Option String
  filing_date : Option String
  similarity_score : Option String
  industry_overlap : Option String
  geographic_overlap : Option String
  risk_level : String
  details : Option String
  url : Option String
deriving DecidableEq

structure CompanyConflict where
  name : String
  cin : Option String
  status : String
  incorporation_date : Option String
  industry : Option String
  state : Option String
  source : String
  overlap_analysis : Option String
  risk_level : String
  url : Option String
deriving DecidableEq

/-- The dict records built by extract_common_law_conflicts. -/
structure CommonLawConflict where
  name : String
  platform : String
  industry_match : Bool
  url : String
  snippet : String
  risk_type : String
  risk_level : String
deriving DecidableEq

structure LegalPrecedent where
  case_name : String
  court : Option String
  year : Option String
  relevance : String
  outcome : Option String
  key_principle : Option String
  source : Option String
  url : Option String
deriving DecidableEq

/-! ## Phonetic variants (generate_phonetic_variants) -/

def phoneticSubs : List (String × String) :=
  [("i", "ee"), ("i", "y"), ("ee", "i"),
   ("a", "ah"), ("a", "e"),
   ("c", "k"), ("k", "c"),
   ("ph", "f"), ("f", "ph"),
   ("s", "z"), ("z", "s"),
   ("x", "ks"), ("ks", "x"),
   ("ou", "u"), ("u", "ou"),
   ("oo", "u"), ("u", "oo"),
   ("ae", "e"), ("e", "ae")]

/-- First-occurrence deduplication with the earlier occurrence kept.
    The source computes list(set(variants)); a CPython set iterates in an
    implementation-defined order, so only the resulting membership is
    specified, modelled here as first-occurrence order. -/
def dedupAux : List String → List String → List String
  | [], _ => []
  | x :: xs, seen => if x ∈ seen then dedupAux xs seen else x :: dedupAux xs (x :: seen)

def dedupKeepFirst (l : List String) : List String := dedupAux l []

def generate_phonetic_variants (brand_name : String) : List String :=
  let name := pyLower brand_name
  let variants :=
    phoneticSubs.filterMap fun p =>
      if strIn p.1 name then some (pyReplaceFirst name p.1 p.2) else none
  let variants :=
    variants ++ (if pyEndsWith name "a" then [name ++ "e", strDropLast name] else [])
             ++ (if pyEndsWith name "e" then [name ++ "a", strDropLast name] else [])
  let variants := dedupKeepFirst (variants.filter fun v => v != name && v != "")
  variants.take 5

/-! ## Nice classification (get_nice_classification) -/

structure NiceClass where
  class_number : Nat
  class_description : String
  matched_term : String
deriving DecidableEq

def NICE_CLASSIFICATION : List (String × Nat × String) :=
  [("fashion", 25, "Clothing, footwear, headgear"),
   ("apparel", 25, "Clothing, footwear, headgear"),
   ("streetwear", 25, "Clothing, footwear, headgear"),
   ("clothing", 25, "Clothing, footwear, headgear"),
   ("footwear", 25, "Clothing, footwear, headgear"),
   ("jewelry", 14, "Precious metals, jewelry, watches"),
   ("cosmetics", 3, "Cosmetics, cleaning preparations"),
   ("skincare", 3, "Cosmetics, cleaning preparations"),
   ("beauty", 3, "Cosmetics, cleaning preparations"),
   ("software", 9, "Scientific apparatus, computers, software"),
   ("technology", 9, "Scientific apparatus, computers, software"),
   ("tech", 9, "Scientific apparatus, computers, software"),
   ("app", 9, "Scientific apparatus, computers, software"),
   ("saas", 42, "Scientific and technological services"),
   ("food", 29, "Meat, fish, preserved foods"),
   ("restaurant", 43, "Food and drink services"),
   ("cafe", 43, "Food and drink services"),
   ("beverages", 32, "Beers, mineral waters, soft drinks"),
   ("pharmaceutical", 5, "Pharmaceuticals, medical preparations"),
   ("pharma", 5, "Pharmaceuticals, medical preparations"),
   ("healthcare", 44, "Medical and healthcare services"),
   ("education", 41, "Education, training, entertainment"),
   ("edtech", 41, "Education, training, entertainment"),
   ("finance", 36, "Insurance, financial affairs"),
   ("fintech", 36, "Insurance, financial affairs"),
   ("banking", 36, "Insurance, financial affairs"),
   ("real estate", 36, "Insurance, financial affairs, real estate"),
   ("automotive", 12, "Vehicles, apparatus for locomotion"),
   ("toys", 28, "Games, toys, sporting goods"),
   ("gaming", 28, "Games, toys, sporting goods"),
   ("furniture", 20, "Furniture, mirrors, picture frames"),
   ("home decor", 20, "Furniture, mirrors, picture frames")]

/-- The bidirectional substring test of the lookup loop:
    key in term or term in key. -/
def niceMatches (key term : String) : Bool := strIn key term || strIn term key

def get_nice_classification (category : String) (industry : String) : NiceClass :=
  let search_terms := [pyLower category, pyLower industry]
  match search_terms.findSome? (fun term =>
      NICE_CLASSIFICATION.findSome? (fun e =>
        if niceMatches e.1 term then some ⟨e.2.1, e.2.2, e.1⟩ else none)) with
  | some r => r
  | none => ⟨35, "Advertising, business management, office functions", "general business"⟩

/-! ## Risk scoring (calculate_risk_scores) -/

structure RiskScores where
  overall_risk_score : Int
  registration_success_probability : Int
  opposition_probability : Int
  critical_conflicts_count : Nat
  high_risk_conflicts_count : Nat
  total_conflicts_found : Nat
deriving DecidableEq

def calculate_risk_scores (trademark_conflicts : List TrademarkConflict)
    (company_conflicts : List CompanyConflict)
    (common_law_conflicts : List CommonLawConflict) : RiskScores :=
  let critical_count := trademark_conflicts.countP (fun c => c.risk_level == "CRITICAL")
    + company_conflicts.countP (fun c => c.risk_level == "CRITICAL")
  let high_count := trademark_conflicts.countP (fun c => c.risk_level == "HIGH")
    + company_conflicts.countP (fun c => c.risk_level == "HIGH")
  let medium_count := trademark_conflicts.countP (fun c => c.risk_level == "MEDIUM")
    + company_conflicts.countP (fun c => c.risk_level == "MEDIUM")
  let total_conflicts := trademark_conflicts.length + company_conflicts.length
    + common_law_conflicts.length
  let overall_risk : Int :=
    if 0 < critical_count then min 10 (8 + (critical_count : Int))
    else if 0 < high_count then min 9 (5 + (high_count : Int))
    else if 0 < medium_count then min 6 (3 + (medium_count : Int))
    else max 1 (min 3 (total_conflicts : Int))
  let success_prob : Int :=
    if 0 < critical_count then max 10 (30 - (critical_count : Int) * 10)
    else if 0 < high_count then max 30 (60 - (high_count : Int) * 10)
    else if 0 < medium_count then max 50 (80 - (medium_count : Int) * 5)
    else min 90 (85 + (if total_conflicts = 0 then (5 : Int) else 0))
  let opposition_prob : Int :=
    if 0 < critical_count ∨ 1 < high_count then
      min 90 (60 + (critical_count : Int) * 15 + (high_count : Int) * 10)
    else if high_count = 1 then 50
    else if 0 < medium_count then min 40 (20 + (medium_count : Int) * 5)
    else 10
  ⟨overall_risk, success_prob, opposition_prob, critical_count, high_count, total_conflicts⟩

/-- The risk-scoring model exactly as the specification words it: a
    piecewise function of the severity counts with branch precedence
    critical, then high, then medium, then none, the opposition formula
    nested inside those branches, and clamp(total, 1, 3) in the no-severity
    branch. -/
def claimRiskScores (critical high medium total : Nat) : RiskScores :=
  let overall : Int :=
    if 0 < critical then min 10 (8 + (critical : Int))
    else if 0 < high then min 9 (5 + (high : Int))
    else if 0 < medium then min 6 (3 + (medium : Int))
    else max (min (total : Int) 3) 1
  let success : Int :=
    if 0 < critical then max 10 (30 - 10 * (critical : Int))
    else if 0 < high then max 30 (60 - 10 * (high : Int))
    else if 0 < medium then max 50 (80 - 5 * (medium : Int))
    else min 90 (85 + (if total = 0 then (5 : Int) else 0))
  let opposition : Int :=
    if 0 < critical then min 90 (60 + 15 * (critical : Int) + 10 * (high : Int))
    else if 0 < high then
      (if high = 1 then 50 else min 90 (60 + 15 * (critical : Int) + 10 * (high : Int)))
    else if 0 < medium then min 40 (20 + 5 * (medium : Int))
    else 10
  ⟨overall, success, opposition, critical, high, total⟩

/-! ## Regex matchers used by the extractors

Each definition implements one of the regular expressions of the source
with the leftmost-match, ordered-alternation, greedy-with-backtracking
semantics of the Python re module. -/

/-- True when the scan position is at a word boundary given the previous
    character (none at the start of the text). -/
def atBoundary : Option Char → Bool
  | none => true
  | some p => !wordChar p

/-- Seven digits followed by a word boundary start here. -/
def digits7At (l : List Char) : Bool :=
  let ds := l.take 7
  ds.length == 7 && ds.all ascDigit &&
    (match l.drop 7 with
     | [] => true
     | c :: _ => !wordChar c)

/-- All matches of the application-number pattern: seven digits with word
    boundaries on both sides. -/
def findSevenDigitAux : Option Char → List Char → List String
  | _, [] => []
  | prev, c :: t =>
      (if atBoundary prev && digits7At (c :: t) then [⟨(c :: t).take 7⟩] else [])
        ++ findSevenDigitAux (some c) t

def findSevenDigit (s : String) : List String := findSevenDigitAux none s.toList

/-- Attempt the class-number pattern at the current position: the literal
    class, then any whitespace, then one or two digits (greedy). -/
def classNumAt (l : List Char) : Option String :=
  if prefAt "class".toList l then
    match (l.drop 5).dropWhile pySpace with
    | d1 :: rest2 =>
        if ascDigit d1 then
          match rest2 with
          | d2 :: _ => if ascDigit d2 then some ⟨[d1, d2]⟩ else some ⟨[d1]⟩
          | [] => some ⟨[d1]⟩
        else none
    | [] => none
  else none

def searchClassNumL : List Char → Option String
  | [] => none
  | c :: t =>
      match classNumAt (c :: t) with
      | some s => some s
      | none => searchClassNumL t

def searchClassNum (s : String) : Option String := searchClassNumL s.toList

/-- First match of the quoted-name pattern: a double quote, one or more
    non-quote characters, a closing double quote. -/
def firstQuotedL : List Char → Option String
  | [] => none
  | '"' :: t =>
      let content := t.takeWhile (fun c => c != '"')
      if content.isEmpty then firstQuotedL t
      else if content.length < t.length then some ⟨content⟩
      else firstQuotedL t
  | _ :: t => firstQuotedL t

/-- One capitalized word: an initial letter (upper case, or any letter
    under IGNORECASE) followed by one or more letters. -/
def parseWordL (ci : Bool) : List Char → Option (List Char × List Char)
  | [] => none
  | c :: t =>
      if (if ci then ascAlpha c else ascUpper c) then
        let more := t.takeWhile ascAlpha
        if more.isEmpty then none
        else some (c :: more, t.drop more.length)
      else none

/-- Greedy repetition of (whitespace, capitalized word) pairs. -/
def parseRepsL (ci : Bool) : Nat → List Char → List (List Char × List Char) × List Char
  | 0, l => ([], l)
  | Nat.succ fuel, l =>
      let ws := l.takeWhile pySpace
      if ws.isEmpty then ([], l)
      else
        match parseWordL ci (l.drop ws.length) with
        | some (w, rest) =>
            let (rs, fin) := parseRepsL ci fuel rest
            ((ws, w) :: rs, fin)
        | none => ([], l)

/-- Case-sensitive literal at the current position. -/
def litAt (lit : List Char) (l : List Char) : Option (List Char × List Char) :=
  if prefAt lit l then some (lit, l.drop lit.length) else none

/-- Case-insensitive literal at the current position; the consumed text
    keeps the original characters. -/
def litAtCI (lit : List Char) (l : List Char) : Option (List Char × List Char) :=
  if prefAtCI lit l then some (l.take lit.length, l.drop lit.length) else none

/-- The keyword alternation trademark|brand|mark, in pattern order. -/
def tmKwAt (l : List Char) : Option (List Char × List Char) :=
  match litAt "trademark".toList l with
  | some r => some r
  | none =>
      match litAt "brand".toList l with
      | some r => some r
      | none => litAt "mark".toList l

/-- The alternative Pvt, optional dot, any whitespace, Ltd, optional dot. -/
def pvtLtdAt (l : List Char) : Option (List Char × List Char) :=
  match litAtCI "pvt".toList l with
  | none => none
  | some (c1, r1) =>
      let dotAndRest1 : List Char × List Char :=
        match r1 with
        | '.' :: t => (['.'], t)
        | _ => ([], r1)
      let ws := dotAndRest1.2.takeWhile pySpace
      let r3 := dotAndRest1.2.drop ws.length
      match litAtCI "ltd".toList r3 with
      | none => none
      | some (c4, r4) =>
          match r4 with
          | '.' :: t => some (c1 ++ dotAndRest1.1 ++ ws ++ c4 ++ ['.'], t)
          | _ => some (c1 ++ dotAndRest1.1 ++ ws ++ c4, r4)

/-- The alternative Inc with an optional dot. -/
def incAt (l : List Char) : Option (List Char × List Char) :=
  match litAtCI "inc".toList l with
  | none => none
  | some (c, r) =>
      match r with
      | '.' :: t => some (c ++ ['.'], t)
      | _ => some (c, r)

/-- Company suffix alternation of the first company-name pattern. -/
def companySuffixAAt (l : List Char) : Option (List Char × List Char) :=
  match litAtCI "private limited".toList l with
  | some r => some r
  | none =>
      match pvtLtdAt l with
      | some r => some r
      | none =>
          match litAtCI "limited".toList l with
          | some r => some r
          | none =>
              match litAtCI "llp".toList l with
              | some r => some r
              | none => incAt l

/-- Company suffix alternation of the second company-name pattern. -/
def companySuffixBAt (l : List Char) : Option (List Char × List Char) :=
  match litAtCI "enterprises".toList l with
  | some r => some r
  | none =>
      match litAtCI "corporation".toList l with
      | some r => some r
      | none => litAtCI "company".toList l

/-- Suffix alternation of the business-name pattern (case-sensitive). -/
def businessSuffixAt (l : List Char) : Option (List Char × List Char) :=
  match litAt "Official".toList l with
  | some r => some r
  | none =>
      match litAt "Shop".toList l with
      | some r => some r
      | none => litAt "Store".toList l

/-- After the word sequence, require one or more whitespace characters and
    then the given suffix alternation; yields group 1 and the text consumed
    by the whitespace plus the suffix. -/
def attemptSuf (suf : List Char → Option (List Char × List Char))
    (g1 rem : List Char) : Option (List Char × List Char) :=
  let ws := rem.takeWhile pySpace
  if ws.isEmpty then none
  else
    match suf (rem.drop ws.length) with
    | some (stext, _) => some (g1, ws ++ stext)
    | none => none

/-- Greedy backtracking over the word repetitions: prefer keeping more
    repetitions inside group 1, exactly as the greedy star backtracks. -/
def seqTry (suf : List Char → Option (List Char × List Char)) :
    List Char → List (List Char × List Char) → List Char →
    Option (List Char × List Char)
  | g1, [], fin => attemptSuf suf g1 fin
  | g1, (ws, w) :: rs, fin =>
      match seqTry suf (g1 ++ ws ++ w) rs fin with
      | some res => some res
      | none =>
          attemptSuf suf g1 (ws ++ w ++ (rs.map (fun p => p.1 ++ p.2)).join ++ fin)

/-- Leftmost search for: capitalized word sequence, whitespace, suffix
    alternation; needB demands a word boundary before the first letter. -/
def wordSeqSearch (ci needB : Bool)
    (suf : List Char → Option (List Char × List Char)) :
    Option Char → List Char → Option (List Char × List Char)
  | _, [] => none
  | prev, c :: t =>
      let here :=
        if !needB || atBoundary prev then
          match parseWordL ci (c :: t) with
          | some (w1, rest) =>
              let (reps, fin) := parseRepsL ci rest.length rest
              seqTry suf w1 reps fin
          | none => none
        else none
      match here with
      | some r => some r
      | none => wordSeqSearch ci needB suf (some c) t

/-- The second brand-name pattern: a keyword, whitespace, then the
    capitalized word sequence as group 1. -/
def p2At (l : List Char) : Option (List Char) :=
  match tmKwAt l with
  | none => none
  | some (_, r1) =>
      let ws := r1.takeWhile pySpace
      if ws.isEmpty then none
      else
        match parseWordL false (r1.drop ws.length) with
        | some (w1, rest) =>
            let (reps, _) := parseRepsL false rest.length rest
            some (w1 ++ (reps.map (fun p => p.1 ++ p.2)).join)
        | none => none

def p2Search : List Char → Option (List Char)
  | [] => none
  | c :: t =>
      match p2At (c :: t) with
      | some g => some g
      | none => p2Search t

/-- Leftmost match of the Twitter/Instagram handle pattern: an at sign
    followed by one or more word characters, group 1 keeps the at sign. -/
def atHandleSearch : List Char → Option (List Char)
  | [] => none
  | '@' :: t =>
      let w := t.takeWhile wordChar
      if w.isEmpty then atHandleSearch t else some ('@' :: w)
  | _ :: t => atHandleSearch t

/-- The fixed-shape CIN pattern under IGNORECASE. -/
def cinShape : List (Char → Bool) :=
  [fun c => c.toLower == 'u' || c.toLower == 'l'] ++
    List.replicate 5 ascDigit ++ List.replicate 2 ascAlpha ++
    List.replicate 4 ascDigit ++ List.replicate 3 ascAlpha ++
    List.replicate 6 ascDigit

def matchShape : List (Char → Bool) → List Char → Option (List Char)
  | [], _ => some []
  | _ :: _, [] => none
  | p :: ps, c :: t =>
      if p c then (matchShape ps t).map (fun m => c :: m) else none

def cinSearchL : List Char → Option String
  | [] => none
  | c :: t =>
      match matchShape cinShape (c :: t) with
      | some m => some ⟨m⟩
      | none => cinSearchL t

def cinSearch (s : String) : Option String := cinSearchL s.toList

/-- The year pattern: a word boundary, 19 or 20, two digits, a word
    boundary. -/
def yearAt (l : List Char) : Bool :=
  match l with
  | a :: b :: c :: d :: rest =>
      ((a == '1' && b == '9') || (a == '2' && b == '0')) && ascDigit c && ascDigit d &&
        (match rest with
         | [] => true
         | e :: _ => !wordChar e)
  | _ => false

def yearSearchAux : Option Char → List Char → Option String
  | _, [] => none
  | prev, c :: t =>
      if atBoundary prev && yearAt (c :: t) then some ⟨(c :: t).take 4⟩
      else yearSearchAux (some c) t

def yearSearch (s : String) : Option String := yearSearchAux none s.toList

/-! ## Case-name matcher of the precedent extractor -/

def alphaSp (c : Char) : Bool := ascAlpha c || pySpace c

/-- After the versus alternation: an optional dot, whitespace, then the
    second party as an upper-case letter followed by letters and spaces. -/
def vAfter (rest : List Char) : Option (List Char) :=
  let r1 := match rest with
            | '.' :: t => t
            | _ => rest
  let ws := r1.takeWhile pySpace
  if ws.isEmpty then none
  else
    match r1.drop ws.length with
    | c :: t2 =>
        if ascUpper c then
          let tl := t2.takeWhile alphaSp
          if tl.isEmpty then none else some (c :: tl)
        else none
    | [] => none

def tryVAlt (alt : List Char) (l : List Char) : Option (List Char) :=
  if prefAt alt l then vAfter (l.drop alt.length) else none

/-- The alternation v|vs|versus with continuation retry in pattern order;
    yields group 2. -/
def vsMatch (l : List Char) : Option (List Char) :=
  match tryVAlt ['v'] l with
  | some g => some g
  | none =>
      match tryVAlt ['v', 's'] l with
      | some g => some g
      | none => tryVAlt "versus".toList l

/-- Backtracking over the length of the first party text, longest first. -/
def caseTryLens (c0 : Char) (t : List Char) : Nat → Option (List Char × List Char)
  | 0 => none
  | Nat.succ n =>
      let X := t.take (Nat.succ n)
      let rem := t.drop (Nat.succ n)
      let ws := rem.takeWhile pySpace
      if ws.isEmpty then caseTryLens c0 t n
      else
        match vsMatch (rem.drop ws.length) with
        | some g2 => some (c0 :: X, g2)
        | none => caseTryLens c0 t n

def caseAtPos (c0 : Char) (t : List Char) : Option (List Char × List Char) :=
  if ascUpper c0 then caseTryLens c0 t (t.takeWhile alphaSp).length
  else none

/-- Leftmost search for the case-name pattern Party v Party in a title. -/
def caseSearch : List Char → Option (List Char × List Char)
  | [] => none
  | c :: t =>
      match caseAtPos c t with
      | some r => some r
      | none => caseSearch t

/-! ## Search hits and the name-extraction helpers -/

structure SearchHit where
  title : String
  url : String
  snippet : String
deriving DecidableEq

/-- extract_brand_name_from_text: quoted names first, then the two
    capitalized-words-near-keyword patterns, then the original brand if it
    occurs in the text. -/
def extract_brand_name_from_text (text : String) (original_brand : String) :
    Option String :=
  match firstQuotedL text.toList with
  | some q => some q
  | none =>
      match wordSeqSearch false true tmKwAt none text.toList with
      | some (g1, _) => some ⟨g1⟩
      | none =>
          match p2Search text.toList with
          | some g => some ⟨g⟩
          | none =>
              if strIn (pyLower original_brand) (pyLower text) then some original_brand
              else none

/-- extract_company_name_from_text: the two name-before-suffix patterns
    under IGNORECASE; the whole match is returned, stripped. -/
def extract_company_name_from_text (text : String) (original_brand : String) :
    Option String :=
  match wordSeqSearch true false companySuffixAAt none text.toList with
  | some (g1, g0suf) => some (pyStrip ⟨g1 ++ g0suf⟩)
  | none =>
      match wordSeqSearch true false companySuffixBAt none text.toList with
      | some (g1, g0suf) => some (pyStrip ⟨g1 ++ g0suf⟩)
      | none => none

/-- extract_business_name: handle pattern first, then the
    capitalized-words-before-Official/Shop/Store pattern (group 1), then the
    original brand if it occurs in the text. -/
def extract_business_name (text : String) (original_brand : String) :
    Option String :=
  match atHandleSearch text.toList with
  | some h => some ⟨h⟩
  | none =>
      match wordSeqSearch false false businessSuffixAt none text.toList with
      | some (g1, _) => some ⟨g1⟩
      | none =>
          if strIn (pyLower original_brand) (pyLower text) then some original_brand
          else none

def industryTable : List (String × List String) :=
  [("fashion", ["fashion", "apparel", "clothing", "garment", "textile"]),
   ("technology", ["technology", "software", "tech", "it ", "digital"]),
   ("cosmetics", ["cosmetic", "beauty", "skincare", "personal care"]),
   ("food", ["food", "beverage", "restaurant", "cafe", "f&b"]),
   ("pharma", ["pharmaceutical", "pharma", "medicine", "drug", "healthcare"]),
   ("finance", ["finance", "banking", "investment", "fintech"]),
   ("education", ["education", "edtech", "learning", "training"])]

def extract_industry_from_text (text : String) : Option String :=
  let text_lower := pyLower text
  (industryTable.find? fun p => p.2.any fun kw => strIn kw text_lower).map
    fun p => pyTitle p.1

/-! ## The generic scan-and-deduplicate shape shared by the extractors

Every extractor walks the hit list once, keeps a set of lower-cased names
already seen, and appends one record per hit that qualifies and carries a
fresh name.  The per-extractor logic is captured by a key function (none
when the hit produces no record) and a record builder. -/

def scanDedup {α : Type} (key : SearchHit → Option String)
    (mk : SearchHit → String → α) :
    List SearchHit → List String → List α → List α
  | [], _, acc => acc
  | h :: t, seen, acc =>
      match key h with
      | none => scanDedup key mk t seen acc
      | some n =>
          if pyLower n ∈ seen then scanDedup key mk t seen acc
          else scanDedup key mk t (pyLower n :: seen) (acc ++ [mk h n])

/-- Variant of the scan whose record builder can fail (the precedent
    extractor indexes url.split, which raises on short URLs). -/
def scanDedupE {α : Type} (key : SearchHit → Option String)
    (mk : SearchHit → String → Except Unit α) :
    List SearchHit → List String → List α → Except Unit (List α)
  | [], _, acc => .ok acc
  | h :: t, seen, acc =>
      match key h with
      | none => scanDedupE key mk t seen acc
      | some n =>
          if pyLower n ∈ seen then scanDedupE key mk t seen acc
          else
            match mk h n with
            | .error e => .error e
            | .ok r => scanDedupE key mk t (pyLower n :: seen) (acc ++ [r])

/-! ## Trademark extractor (extract_trademark_conflicts) -/

/-- The combined text of the trademark extractor: title and snippet are
    lower-cased before concatenation. -/
def tmCombined (h : SearchHit) : String :=
  pyLower h.title ++ " " ++ pyLower h.snippet

def tmStatus (combined : String) : Option String :=
  if strIn "registered" combined then some "REGISTERED"
  else if strIn "pending" combined then some "PENDING"
  else if strIn "objected" combined then some "OBJECTED"
  else if strIn "opposed" combined then some "OPPOSED"
  else if strIn "abandoned" combined then some "ABANDONED"
  else none

/-- Qualification test of the trademark extractor: the hit must mention the
    brand or a phonetic variant, and a non-empty conflict name must be
    extractable from the title. -/
def tmKey (brand_name : String) (h : SearchHit) : Option String :=
  let combined := tmCombined h
  if strIn (pyLower brand_name) combined
      || (generate_phonetic_variants brand_name).any (fun v => strIn v combined) then
    (extract_brand_name_from_text h.title brand_name).bind fun n =>
      if n = "" then none else some n
  else none

def tmMk (brand_name : String) (h : SearchHit) (n : String) : TrademarkConflict :=
  let combined := tmCombined h
  let app_numbers := findSevenDigit combined
  let status := tmStatus combined
  let source :=
    if strIn "trademarking.in" h.url then "Trademarking.in"
    else if strIn "ipindia" h.url then "IP India"
    else if strIn "justia" h.url then "USPTO/Justia"
    else "Web Search"
  let risk_level :=
    if status == some "REGISTERED" then "HIGH"
    else if status == some "PENDING" then "MEDIUM"
    else if status == some "OBJECTED" then "LOW"
    else "MEDIUM"
  { name := n, source := source, conflict_type := "trademark_application",
    application_number := app_numbers.head?, status := status, owner := none,
    class_number := searchClassNum combined, filing_date := none,
    similarity_score := none, industry_overlap := none,
    geographic_overlap := none, risk_level := risk_level,
    details := some (pyTake h.snippet 200), url := some h.url }

def extract_trademark_conflicts (search_results : List SearchHit)
    (brand_name : String) : List TrademarkConflict :=
  scanDedup (tmKey brand_name) (tmMk brand_name) search_results [] []

/-! ## Company extractor (extract_company_conflicts) -/

def companyKeywords : List String :=
  ["private limited", "pvt ltd", "limited", "llp",
   "incorporated", "company", "enterprises", "corporation"]

def indianStates : List String :=
  ["maharashtra", "delhi", "karnataka", "tamil nadu", "telangana",
   "gujarat", "west bengal", "rajasthan", "kerala", "andhra pradesh"]

/-- The combined text of the company, common-law and precedent extractors:
    the concatenation is lower-cased as a whole. -/
def coCombined (h : SearchHit) : String := pyLower (h.title ++ " " ++ h.snippet)

def coKey (brand_name : String) (h : SearchHit) : Option String :=
  let combined := coCombined h
  let is_company := companyKeywords.any fun x => strIn x combined
  if (strIn (pyLower brand_name) combined
      || (generate_phonetic_variants brand_name).any (fun v => strIn v combined))
      && is_company then
    (extract_company_name_from_text h.title brand_name).bind fun n =>
      if n = "" then none else some n
  else none

def coMk (brand_name : String) (h : SearchHit) (n : String) : CompanyConflict :=
  let combined := coCombined h
  let source :=
    if strIn "tofler.in" h.url then "Tofler"
    else if strIn "zaubacorp" h.url then "Zauba Corp"
    else if strIn "mca.gov.in" h.url then "MCA"
    else "Web Search"
  { name := n,
    cin := cinSearch (h.title ++ " " ++ h.snippet),
    status := if strIn "active" combined then "ACTIVE" else "UNKNOWN",
    incorporation_date := none,
    industry := extract_industry_from_text h.snippet,
    state := (indianStates.find? fun s => strIn s combined).map pyTitle,
    source := source, overlap_analysis := none,
    risk_level := if strIn (pyLower brand_name) (pyLower n) then "HIGH" else "MEDIUM",
    url := some h.url }

def extract_company_conflicts (search_results : List SearchHit)
    (brand_name : String) : List CompanyConflict :=
  scanDedup (coKey brand_name) (coMk brand_name) search_results [] []

/-! ## Common-law extractor (extract_common_law_conflicts) -/

def businessKeywords : List String :=
  ["shop", "store", "buy", "order", "instagram", "facebook",
   "@", "official", "website", "online", ".com", "ecommerce"]

def registryMarkers : List String :=
  ["trademark", "ipindia", "wipo", "uspto", "tofler", "mca.gov",
   "court", "legal", "law"]

def isRegistryUrl (url : String) : Bool :=
  registryMarkers.any fun x => strIn x (pyLower url)

def clKey (brand_name : String) (h : SearchHit) : Option String :=
  let combined := coCombined h
  let is_business := businessKeywords.any fun x => strIn x combined
  if is_business && !isRegistryUrl h.url && strIn (pyLower brand_name) combined then
    (extract_business_name h.title brand_name).bind fun n =>
      if n = "" then none else some n
  else none

def clMk (industry : String) (h : SearchHit) (n : String) : CommonLawConflict :=
  let combined := coCombined h
  let platform :=
    if strIn "instagram" h.url || strIn "instagram" combined then "Instagram"
    else if strIn "facebook" h.url || strIn "facebook" combined then "Facebook"
    else if strIn "amazon" h.url then "Amazon"
    else if strIn "flipkart" h.url then "Flipkart"
    else "Website"
  { name := n, platform := platform,
    industry_match := if industry = "" then false else strIn (pyLower industry) combined,
    url := h.url, snippet := pyTake h.snippet 150, risk_type := "common_law",
    risk_level := if strIn (pyLower industry) combined then "MEDIUM" else "LOW" }

def extract_common_law_conflicts (search_results : List SearchHit)
    (brand_name : String) (industry : String) : List CommonLawConflict :=
  (scanDedup (clKey brand_name) (clMk industry) search_results [] []).take 10

/-! ## Legal-precedent extractor (extract_legal_precedents) -/

def legalKeywords : List String :=
  [" v ", " vs ", "case", "judgment", "court", "tribunal",
   "infringement", "passing off", "section 29", "trade marks act"]

/-- The case name: the Party v Party pattern in the title, with stripped
    groups, or the truncated title. -/
def caseNameOf (h : SearchHit) : String :=
  match caseSearch h.title.toList with
  | some (g1, g2) => pyStrip ⟨g1⟩ ++ " v. " ++ pyStrip ⟨g2⟩
  | none => pyTake h.title 100

def lpKey (h : SearchHit) : Option String :=
  let combined := coCombined h
  if legalKeywords.any (fun x => strIn x combined) then some (caseNameOf h)
  else none

/-- The source field is url.split("/")[2] when the url is non-empty; the
    Python indexing raises when the split has fewer than three parts, hence
    the Except. -/
def urlSource (url : String) : Except Unit String :=
  if url = "" then .ok "Unknown"
  else
    match (splitSlash url.toList).get? 2 with
    | some part => .ok ⟨part⟩
    | none => .error ()

def lpMk (h : SearchHit) (n : String) : Except Unit LegalPrecedent :=
  let combined := coCombined h
  let court :=
    if strIn "supreme court" combined then some "Supreme Court of India"
    else if strIn "delhi" combined && (strIn "high court" combined || strIn "hc" combined) then
      some "Delhi High Court"
    else if strIn "bombay" combined && strIn "high court" combined then
      some "Bombay High Court"
    else if strIn "high court" combined then some "High Court"
    else none
  match urlSource h.url with
  | .error e => .error e
  | .ok src =>
      .ok { case_name := pyTake n 150, court := court,
            year := yearSearch combined,
            relevance := pyTake h.snippet 200, outcome := none,
            key_principle := none, source := some src, url := some h.url }

def extract_legal_precedents (search_results : List SearchHit) :
    Except Unit (List LegalPrecedent) :=
  Except.map (fun l => l.take 5) (scanDedupE lpKey lpMk search_results [] [])

/-- The brand-relevance predicate of the specification: the lower-cased
    brand name, or one of its phonetic variants, occurs in the combined
    lower-cased title-and-snippet text. -/
def brandRelevant (brand_name : String) (h : SearchHit) : Bool :=
  let combined := tmCombined h
  strIn (pyLower brand_name) combined
    || (generate_phonetic_variants brand_name).any (fun v => strIn v combined)

/-! ## Retrieval engine (execute_web_search and the batch loop) -/

structure SearchQuery where
  query : String
  purpose : String
deriving DecidableEq

/-- A raw hit as delivered by the search provider. -/
structure WebResult where
  title : String
  url : String
  snippet : String
deriving DecidableEq

/-- A hit after execute_web_search normalised it. -/
structure SearchResultRec where
  title : String
  url : String
  snippet : String
  source : String
deriving DecidableEq

/-- A hit after the batch loop tagged it with its query purpose. -/
structure TaggedResult where
  title : String
  url : String
  snippet : String
  source : String
  query_purpose : String
deriving DecidableEq

/-- execute_web_search: any provider exception is caught and turned into an
    empty result list; successful results are normalised. -/
def execute_web_search (provider : String → Except String (List WebResult))
    (query : String) : List SearchResultRec :=
  match provider query with
  | .ok rs => rs.map fun r =>
      { title := r.title, url := r.url, snippet := r.snippet, source := "DuckDuckGo" }
  | .error _ => []

def tagResults (rs : List SearchResultRec) (purpose : String) : List TaggedResult :=
  rs.map fun r =>
    { title := r.title, url := r.url, snippet := r.snippet, source := r.source,
      query_purpose := purpose }

/-- The batching of the retrieval loop: batches of five queries, processed
    in order. -/
def chunk5 : List SearchQuery → List (List SearchQuery)
  | [] => []
  | a :: b :: c :: d :: e :: rest => [a, b, c, d, e] :: chunk5 rest
  | [a] => [[a]]
  | [a, b] => [[a, b]]
  | [a, b, c] => [[a, b, c]]
  | [a, b, c, d] => [[a, b, c, d]]

def runSearchBatch (provider : String → Except String (List WebResult))
    (batch : List SearchQuery) : List TaggedResult :=
  batch.flatMap fun q => tagResults (execute_web_search provider q.query) q.purpose

/-- The search phase of conduct_trademark_research: all batches run in
    order and their tagged hits are concatenated into one flat list. -/
def collect_search_results (provider : String → Except String (List WebResult))
    (queries : List SearchQuery) : List TaggedResult :=
  (chunk5 queries).flatMap (runSearchBatch provider)

/-! ## Concrete inputs used by the claim witnesses and counterexamples -/

def c2FailProvider : String → Except String (List WebResult) :=
  fun _ => .error "provider down"

def c2Queries : List SearchQuery :=
  [⟨"q1", "p1"⟩, ⟨"q2", "p2"⟩, ⟨"q3", "p3"⟩, ⟨"q4", "p4"⟩, ⟨"q5", "p5"⟩, ⟨"q6", "p6"⟩]

def c3HitReg : SearchHit :=
  { title := "Zen", url := "u1", snippet := "registered" }

def c3HitPend : SearchHit :=
  { title := "Zen", url := "u2", snippet := "pending" }

def c3WitA : SearchHit :=
  { title := "News about \"Alpha\"", url := "https://a.example/x", snippet := "zen registered" }

def c3WitB : SearchHit :=
  { title := "News about \"Beta\"", url := "https://b.example/y", snippet := "zen pending" }

def c4Hit : SearchHit :=
  { title := "Apple v Samsung", url := "https://law.example.com/case",
    snippet := "case judgment" }

def c7Hit : SearchHit :=
  { title := "ZenTech Pvt Ltd", url := "https://example.com/zentech",
    snippet := "registered trademark class 9" }


/-! # Helper lemmas -/

theorem pyLower_append (a b : String) : pyLower (a ++ b) = pyLower a ++ pyLower b := by
  cases a with
  | mk la =>
    cases b with
    | mk lb =>
      show String.mk ((la ++ lb).map Char.toLower)
          = String.mk (la.map Char.toLower ++ lb.map Char.toLower)
      rw [List.map_append]

theorem coCombined_eq_tmCombined (h : SearchHit) : coCombined h = tmCombined h := by
  unfold coCombined tmCombined
  rw [pyLower_append, pyLower_append]
  rfl

theorem dedupAux_subset : ∀ (l seen : List String) (x : String),
    x ∈ dedupAux l seen → x ∈ l := by
  intro l
  induction l with
  | nil => intro seen x hx; simp [dedupAux] at hx
  | cons a t ih =>
    intro seen x hx
    by_cases ha : a ∈ seen
    · simp only [dedupAux, if_pos ha] at hx
      exact List.mem_cons_of_mem _ (ih _ _ hx)
    · simp only [dedupAux, if_neg ha, List.mem_cons] at hx
      rcases hx with hx | hx
      · exact hx ▸ List.mem_cons_self _ _
      · exact List.mem_cons_of_mem _ (ih _ _ hx)

theorem scanDedup_mem {α : Type} (key : SearchHit → Option String)
    (mk : SearchHit → String → α) :
    ∀ (hits : List SearchHit) (seen : List String) (acc : List α) (r : α),
      r ∈ scanDedup key mk hits seen acc →
      r ∈ acc ∨ ∃ h ∈ hits, ∃ n, key h = some n ∧ r = mk h n := by
  intro hits
  induction hits with
  | nil => intro seen acc r hr; exact Or.inl hr
  | cons h t ih =>
    intro seen acc r hr
    cases hk : key h with
    | none =>
      simp only [scanDedup, hk] at hr
      rcases ih _ _ _ hr with h1 | ⟨h', hh', n, hn, he⟩
      · exact Or.inl h1
      · exact Or.inr ⟨h', List.mem_cons_of_mem _ hh', n, hn, he⟩
    | some n =>
      by_cases hseen : pyLower n ∈ seen
      · simp only [scanDedup, hk, if_pos hseen] at hr
        rcases ih _ _ _ hr with h1 | ⟨h', hh', n', hn', he⟩
        · exact Or.inl h1
        · exact Or.inr ⟨h', List.mem_cons_of_mem _ hh', n', hn', he⟩
      · simp only [scanDedup, hk, if_neg hseen] at hr
        rcases ih _ _ _ hr with h1 | ⟨h', hh', n', hn', he⟩
        · rcases List.mem_append.mp h1 with h2 | h2
          · exact Or.inl h2
          · exact Or.inr ⟨h, List.mem_cons_self _ _, n, hk, by simpa using h2⟩
        · exact Or.inr ⟨h', List.mem_cons_of_mem _ hh', n', hn', he⟩

theorem scanDedup_filter {α : Type} (key : SearchHit → Option String)
    (mk : SearchHit → String → α) (q : SearchHit → Bool)
    (hkey : ∀ h, q h = false → key h = none) :
    ∀ (hits : List SearchHit) (seen : List String) (acc : List α),
      scanDedup key mk hits seen acc = scanDedup key mk (hits.filter q) seen acc := by
  intro hits
  induction hits with
  | nil => intros; rfl
  | cons h t ih =>
    intro seen acc
    by_cases hq : q h
    · rw [List.filter_cons_of_pos hq]
      cases hk : key h with
      | none => simp only [scanDedup, hk]; exact ih _ _
      | some n =>
        by_cases hseen : pyLower n ∈ seen
        · simp only [scanDedup, hk, if_pos hseen]; exact ih _ _
        · simp only [scanDedup, hk, if_neg hseen]; exact ih _ _
    · rw [List.filter_cons_of_neg (by simpa using hq)]
      have hn := hkey h (by simpa using hq)
      simp only [scanDedup, hn]
      exact ih _ _

theorem scanDedup_eq_append {α : Type} (key : SearchHit → Option String)
    (mk : SearchHit → String → α) :
    ∀ (hits : List SearchHit) (seen : List String) (acc : List α),
      ((hits.filterMap key).map pyLower).Nodup →
      (∀ k ∈ (hits.filterMap key).map pyLower, k ∉ seen) →
      scanDedup key mk hits seen acc
        = acc ++ hits.filterMap (fun h => (key h).map (mk h)) := by
  intro hits
  induction hits with
  | nil => intro seen acc _ _; simp [scanDedup]
  | cons h t ih =>
    intro seen acc hnd hfresh
    cases hk : key h with
    | none =>
      simp only [scanDedup, hk]
      rw [ih seen acc (by simpa [List.filterMap_cons, hk] using hnd)
            (by simpa [List.filterMap_cons, hk] using hfresh)]
      simp [List.filterMap_cons, hk]
    | some n =>
      have hmem : pyLower n ∈ (List.filterMap key (h :: t)).map pyLower := by
        simp [List.filterMap_cons, hk]
      have hnotseen : pyLower n ∉ seen := hfresh _ hmem
      have hnd2 := hnd
      simp only [List.filterMap_cons, hk, List.map_cons, List.nodup_cons] at hnd2
      have hnd' : ((t.filterMap key).map pyLower).Nodup := hnd2.2
      have hhead : pyLower n ∉ (t.filterMap key).map pyLower := hnd2.1
      have hfresh' : ∀ k ∈ (t.filterMap key).map pyLower, k ∉ pyLower n :: seen := by
        intro k hkmem
        simp only [List.mem_cons, not_or]
        constructor
        · intro hke; exact hhead (hke ▸ hkmem)
        · exact hfresh _ (by simp [List.filterMap_cons, hk, hkmem])
      simp only [scanDedup, hk, if_neg hnotseen]
      rw [ih (pyLower n :: seen) (acc ++ [mk h n]) hnd' hfresh']
      simp [List.filterMap_cons, hk]

theorem scanDedupE_eq_ok {α : Type} (key : SearchHit → Option String)
    (mk : SearchHit → String → Except Unit α) :
    ∀ (hits : List SearchHit) (seen : List String) (acc : List α),
      ((hits.filterMap key).map pyLower).Nodup →
      (∀ k ∈ (hits.filterMap key).map pyLower, k ∉ seen) →
      (∀ h ∈ hits, ∀ n, key h = some n → ∃ r, mk h n = .ok r) →
      scanDedupE key mk hits seen acc
        = .ok (acc ++ hits.filterMap fun h => (key h).bind fun n => (mk h n).toOption) := by
  intro hits
  induction hits with
  | nil => intro seen acc _ _ _; simp [scanDedupE]
  | cons h t ih =>
    intro seen acc hnd hfresh hok
    cases hk : key h with
    | none =>
      simp only [scanDedupE, hk]
      rw [ih seen acc (by simpa [List.filterMap_cons, hk] using hnd)
            (by simpa [List.filterMap_cons, hk] using hfresh)
            (fun h' hh' => hok h' (List.mem_cons_of_mem _ hh'))]
      simp [List.filterMap_cons, hk]
    | some n =>
      have hmem : pyLower n ∈ (List.filterMap key (h :: t)).map pyLower := by
        simp [List.filterMap_cons, hk]
      have hnotseen : pyLower n ∉ seen := hfresh _ hmem
      have hnd2 := hnd
      simp only [List.filterMap_cons, hk, List.map_cons, List.nodup_cons] at hnd2
      have hnd' : ((t.filterMap key).map pyLower).Nodup := hnd2.2
      have hhead : pyLower n ∉ (t.filterMap key).map pyLower := hnd2.1
      have hfresh' : ∀ k ∈ (t.filterMap key).map pyLower, k ∉ pyLower n :: seen := by
        intro k hkmem
        simp only [List.mem_cons, not_or]
        exact ⟨fun hke => hhead (hke ▸ hkmem), hfresh _ (by simp [List.filterMap_cons, hk, hkmem])⟩
      obtain ⟨r, hr⟩ := hok h (List.mem_cons_self _ _) n hk
      simp only [scanDedupE, hk, if_neg hnotseen, hr]
      rw [ih (pyLower n :: seen) (acc ++ [r]) hnd' hfresh'
            (fun h' hh' => hok h' (List.mem_cons_of_mem _ hh'))]
      simp [List.filterMap_cons, hk, hr, Except.toOption]

theorem emit_length {α : Type} (key : SearchHit → Option String)
    (mk : SearchHit → String → α) :
    ∀ hits : List SearchHit,
      (hits.filterMap fun h => (key h).map (mk h)).length
        = ((hits.filterMap key).map pyLower).length := by
  intro hits
  induction hits with
  | nil => rfl
  | cons h t ih =>
    cases hk : key h with
    | none => simp [List.filterMap_cons, hk, ih]
    | some n => simp [List.filterMap_cons, hk, ih]

theorem emitE_length {α : Type} (key : SearchHit → Option String)
    (mk : SearchHit → String → Except Unit α) :
    ∀ hits : List SearchHit,
      (∀ h ∈ hits, ∀ n, key h = some n → ∃ r, mk h n = .ok r) →
      (hits.filterMap fun h => (key h).bind fun n => (mk h n).toOption).length
        = ((hits.filterMap key).map pyLower).length := by
  intro hits
  induction hits with
  | nil => intro _; rfl
  | cons h t ih =>
    intro hok
    cases hk : key h with
    | none =>
      simp [List.filterMap_cons, hk, ih (fun h' hh' => hok h' (List.mem_cons_of_mem _ hh'))]
    | some n =>
      obtain ⟨r, hr⟩ := hok h (List.mem_cons_self _ _) n hk
      have ih2 := ih (fun h' hh' => hok h' (List.mem_cons_of_mem _ hh'))
      simp only [List.filterMap_cons, hk, List.map_cons, List.length_cons]
      simp [Option.bind, hr, Except.toOption]
      simpa [Option.bind, Except.toOption] using ih2

/-! # Claim theorems -/

/-- Claim C1: the risk scoring model is a deterministic piecewise function
    of the severity counts taken over the trademark and company conflict
    lists, with total over all three lists, evaluated with branch
    precedence critical, high, medium, none, and exactly the clamp and
    probability formulas of the specification. -/
theorem c1_risk_scoring (tc : List TrademarkConflict) (cc : List CompanyConflict)
    (cl : List CommonLawConflict) :
    calculate_risk_scores tc cc cl =
      claimRiskScores
        (tc.countP (fun c => c.risk_level == "CRITICAL")
          + cc.countP (fun c => c.risk_level == "CRITICAL"))
        (tc.countP (fun c => c.risk_level == "HIGH")
          + cc.countP (fun c => c.risk_level == "HIGH"))
        (tc.countP (fun c => c.risk_level == "MEDIUM")
          + cc.countP (fun c => c.risk_level == "MEDIUM"))
        (tc.length + cc.length + cl.length) := by
  simp only [calculate_risk_scores, claimRiskScores]
  generalize (tc.countP (fun c => c.risk_level == "CRITICAL")
      + cc.countP (fun c => c.risk_level == "CRITICAL")) = crit
  generalize (tc.countP (fun c => c.risk_level == "HIGH")
      + cc.countP (fun c => c.risk_level == "HIGH")) = high
  generalize (tc.countP (fun c => c.risk_level == "MEDIUM")
      + cc.countP (fun c => c.risk_level == "MEDIUM")) = med
  generalize (tc.length + cc.length + cl.length) = tot
  simp only [RiskScores.mk.injEq]
  refine ⟨?_, ?_, ?_, trivial, trivial, trivial⟩
  · simp only [Int.min_def, Int.max_def]
    split_ifs <;> omega
  · simp only [Int.min_def, Int.max_def]
    split_ifs <;> omega
  · rcases Nat.eq_zero_or_pos crit with hc | hc
    · rcases Nat.lt_trichotomy high 1 with hh | hh | hh
      · have h0 : high = 0 := by omega
        subst h0; subst hc
        norm_num [Int.min_def, Int.max_def]
        split_ifs <;> omega
      · subst hh; subst hc
        norm_num
      · subst hc
        rw [if_pos (Or.inr hh), if_neg (by omega : ¬ (0:Nat) < 0),
          if_pos (by omega : 0 < high), if_neg (by omega : ¬ high = 1)]
        simp only [Int.min_def]
        split_ifs <;> omega
    · rw [if_pos (Or.inl hc), if_pos hc]
      simp only [Int.min_def]
      split_ifs <;> omega

/-- Claim C5: the classification lookup is total and scans category before
    industry with a bidirectional substring match; whenever no table entry
    matches either input it returns exactly the default record with code 35,
    description Advertising, business management, office functions, and
    matched term general business. -/
theorem c5_classification_default (category industry : String)
    (h : ∀ e ∈ NICE_CLASSIFICATION,
        niceMatches e.1 (pyLower category) = false
          ∧ niceMatches e.1 (pyLower industry) = false) :
    get_nice_classification category industry
      = ⟨35, "Advertising, business management, office functions", "general business"⟩ := by
  unfold get_nice_classification
  have hcat : (NICE_CLASSIFICATION.findSome? fun e =>
      if niceMatches e.1 (pyLower category) then
        some (⟨e.2.1, e.2.2, e.1⟩ : NiceClass) else none) = none := by
    rw [List.findSome?_eq_none_iff]
    intro e he
    simp [(h e he).1]
  have hind : (NICE_CLASSIFICATION.findSome? fun e =>
      if niceMatches e.1 (pyLower industry) then
        some (⟨e.2.1, e.2.2, e.1⟩ : NiceClass) else none) = none := by
    rw [List.findSome?_eq_none_iff]
    intro e he
    simp [(h e he).2]
  simp [List.findSome?_cons, hcat, hind]

/-- Witness for claim C5 at the concrete inputs zzz and qqq. -/
theorem c5_classification_default_witness :
    (∀ e ∈ NICE_CLASSIFICATION,
        niceMatches e.1 (pyLower "zzz") = false
          ∧ niceMatches e.1 (pyLower "qqq") = false) ∧
    get_nice_classification "zzz" "qqq"
      = ⟨35, "Advertising, business management, office functions", "general business"⟩ :=
  ⟨by decide, c5_classification_default "zzz" "qqq" (by decide)⟩

/-- Claim C8: for every input string, including the empty string, the
    phonetic variant generator returns at most five variants and never
    includes the lower-cased original name. -/
theorem c8_phonetic_bounds (brand_name : String) :
    (generate_phonetic_variants brand_name).length ≤ 5 ∧
    pyLower brand_name ∉ generate_phonetic_variants brand_name := by
  unfold generate_phonetic_variants
  constructor
  · simpa using List.length_take_le 5 _
  · intro hmem
    have h1 := List.mem_of_mem_take hmem
    have h2 := dedupAux_subset _ _ _ h1
    have h3 := List.mem_filter.mp h2
    have h4 := h3.2
    simp only [Bool.and_eq_true, bne_iff_ne, ne_eq] at h4
    exact h4.1 trivial

/-- Claim C10: with an empty category string the classification lookup does
    not fall through to the default code 35: the empty string matches the
    first table entry, so the result is class 25 with matched term fashion,
    for every industry argument. -/
theorem c10_empty_category (industry : String) :
    get_nice_classification "" industry
        = ⟨25, "Clothing, footwear, headgear", "fashion"⟩ ∧
    (get_nice_classification "" industry).class_number ≠ 35 := by
  refine ⟨rfl, ?_⟩
  have h : (get_nice_classification "" industry).class_number = 25 := rfl
  omega

theorem chunk5_flatMap {β : Type} (f : SearchQuery → List β) :
    ∀ qs : List SearchQuery,
      (chunk5 qs).flatMap (fun b => b.flatMap f) = qs.flatMap f := by
  intro qs
  induction qs using chunk5.induct with
  | case1 => simp [chunk5]
  | case2 a b c d e rest ih => simp [chunk5, ih]
  | case3 a => simp [chunk5]
  | case4 a b => simp [chunk5]
  | case5 a b c => simp [chunk5]
  | case6 a b c d => simp [chunk5]

/-- Claim C2: if the provider raises on every call, the retrieval engine
    still returns a completed, empty hit list for any non-empty query list;
    and in general the collected hits are exactly the concatenation of the
    recovered per-query results, so one failing query never costs the hits
    of its siblings. -/
theorem c2_retrieval_resilience
    (provider : String → Except String (List WebResult))
    (queries : List SearchQuery)
    (hne : queries ≠ [])
    (hfail : ∀ s, ∃ e, provider s = .error e) :
    collect_search_results provider queries = [] ∧
    ∀ (p : String → Except String (List WebResult)) (qs : List SearchQuery),
      collect_search_results p qs
        = qs.flatMap fun q => tagResults (execute_web_search p q.query) q.purpose := by
  have hgen : ∀ (p : String → Except String (List WebResult)) (qs : List SearchQuery),
      collect_search_results p qs
        = qs.flatMap fun q => tagResults (execute_web_search p q.query) q.purpose := by
    intro p qs
    unfold collect_search_results runSearchBatch
    exact chunk5_flatMap _ qs
  refine ⟨?_, hgen⟩
  rw [hgen provider queries]
  rw [List.flatMap_eq_nil_iff]
  intro q _
  obtain ⟨e, he⟩ := hfail q.query
  simp [execute_web_search, he, tagResults]

/-- Witness for claim C2: a provider that always raises, with six queries
    spanning two batches, yields the empty completed list. -/
theorem c2_retrieval_resilience_witness :
    c2Queries ≠ [] ∧ (∀ s, ∃ e, c2FailProvider s = .error e) ∧
    collect_search_results c2FailProvider c2Queries = [] :=
  ⟨by decide, fun _ => ⟨"provider down", rfl⟩,
    (c2_retrieval_resilience c2FailProvider c2Queries (by decide)
      (fun _ => ⟨"provider down", rfl⟩)).1⟩

/-- Claim C6: the common-law extractor never produces a record from a hit
    whose URL carries a registry or legal-site marker; removing all such
    hits leaves its output unchanged, for every hit list, brand and
    industry. -/
theorem c6_registry_exclusion (hits : List SearchHit) (brand_name industry : String) :
    extract_common_law_conflicts hits brand_name industry
      = extract_common_law_conflicts (hits.filter fun h => !isRegistryUrl h.url)
          brand_name industry := by
  unfold extract_common_law_conflicts
  rw [scanDedup_filter (clKey brand_name) (clMk industry)
        (fun h => !isRegistryUrl h.url) ?hk]
  case hk =>
    intro h hq
    have hreg : isRegistryUrl h.url = true := by simpa using hq
    simp [clKey, hreg]

/-- Claim C7: for brand Zen and the single hit with title ZenTech Pvt Ltd
    and a snippet containing registered and class 9, the trademark
    extractor returns exactly one conflict with status REGISTERED, class
    number 9 and risk level HIGH, and the company extractor returns exactly
    one conflict with risk level HIGH. -/
theorem c7_scenario_b :
    extract_trademark_conflicts [c7Hit] "Zen"
        = [{ name := "Zen", source := "Web Search",
             conflict_type := "trademark_application", application_number := none,
             status := some "REGISTERED", owner := none, class_number := some "9",
             filing_date := none, similarity_score := none, industry_overlap := none,
             geographic_overlap := none, risk_level := "HIGH",
             details := some "registered trademark class 9",
             url := some "https://example.com/zentech" }] ∧
    extract_company_conflicts [c7Hit] "Zen"
        = [{ name := "ZenTech Pvt Ltd", cin := none, status := "UNKNOWN",
             incorporation_date := none, industry := none, state := none,
             source := "Web Search", overlap_analysis := none, risk_level := "HIGH",
             url := some "https://example.com/zentech" }] := by
  constructor
  · decide
  · decide

theorem tmKey_relevant (brand_name : String) (h : SearchHit) (n : String)
    (hk : tmKey brand_name h = some n) : brandRelevant brand_name h = true := by
  simp only [tmKey] at hk
  cases hcv : (strIn (pyLower brand_name) (tmCombined h)
      || (generate_phonetic_variants brand_name).any fun v => strIn v (tmCombined h)) with
  | true => exact hcv
  | false => rw [hcv] at hk; simp at hk

theorem coKey_relevant (brand_name : String) (h : SearchHit) (n : String)
    (hk : coKey brand_name h = some n) : brandRelevant brand_name h = true := by
  simp only [coKey] at hk
  cases hcv : ((strIn (pyLower brand_name) (coCombined h)
      || (generate_phonetic_variants brand_name).any fun v => strIn v (coCombined h))
      && companyKeywords.any fun x => strIn x (coCombined h)) with
  | false => rw [hcv] at hk; simp at hk
  | true =>
      have hrel := (Bool.and_eq_true _ _).mp hcv |>.1
      show (strIn (pyLower brand_name) (tmCombined h)
        || (generate_phonetic_variants brand_name).any fun v => strIn v (tmCombined h)) = true
      rw [← coCombined_eq_tmCombined h]
      exact hrel

theorem clKey_relevant (brand_name : String) (h : SearchHit) (n : String)
    (hk : clKey brand_name h = some n) : brandRelevant brand_name h = true := by
  simp only [clKey] at hk
  cases hcv : ((businessKeywords.any fun x => strIn x (coCombined h))
      && !isRegistryUrl h.url && strIn (pyLower brand_name) (coCombined h)) with
  | false => rw [hcv] at hk; simp at hk
  | true =>
      have hc3 := (Bool.and_eq_true _ _).mp hcv |>.2
      show (strIn (pyLower brand_name) (tmCombined h)
        || (generate_phonetic_variants brand_name).any fun v => strIn v (tmCombined h)) = true
      rw [← coCombined_eq_tmCombined h, hc3]
      simp

/-- Claim C4, amended: each of the trademark, company and common-law
    extractors emits a record from a hit only if that hit is brand-relevant
    (lower-cased brand substring of the combined title-and-snippet text, or
    a phonetic variant substring): removing every non-relevant hit leaves
    their outputs unchanged. The legal-precedent extractor takes no brand
    argument and emits on legal-context keywords alone, so it is exempt. -/
theorem c4_amended (hits : List SearchHit) (brand_name industry : String) :
    extract_trademark_conflicts hits brand_name
        = extract_trademark_conflicts (hits.filter (brandRelevant brand_name))
            brand_name ∧
    extract_company_conflicts hits brand_name
        = extract_company_conflicts (hits.filter (brandRelevant brand_name))
            brand_name ∧
    extract_common_law_conflicts hits brand_name industry
        = extract_common_law_conflicts (hits.filter (brandRelevant brand_name))
            brand_name industry := by
  have htm : ∀ h, brandRelevant brand_name h = false → tmKey brand_name h = none := by
    intro h hb
    cases hk : tmKey brand_name h with
    | none => rfl
    | some n => simp [tmKey_relevant brand_name h n hk] at hb
  have hco : ∀ h, brandRelevant brand_name h = false → coKey brand_name h = none := by
    intro h hb
    cases hk : coKey brand_name h with
    | none => rfl
    | some n => simp [coKey_relevant brand_name h n hk] at hb
  have hcl : ∀ h, brandRelevant brand_name h = false → clKey brand_name h = none := by
    intro h hb
    cases hk : clKey brand_name h with
    | none => rfl
    | some n => simp [clKey_relevant brand_name h n hk] at hb
  refine ⟨?_, ?_, ?_⟩
  · unfold extract_trademark_conflicts
    exact scanDedup_filter _ _ _ htm hits [] []
  · unfold extract_company_conflicts
    exact scanDedup_filter _ _ _ hco hits [] []
  · unfold extract_common_law_conflicts
    rw [scanDedup_filter _ _ _ hcl hits [] []]

/-- Counterexample to claim C4 as stated: the legal-precedent extractor
    emits a record from a hit that is not brand-relevant for brand Zen. -/
theorem c4_counterexample :
    (extract_legal_precedents [c4Hit]).toOption
        = some [{ case_name := "Apple v. Samsung", court := none, year := none,
                  relevance := "case judgment", outcome := none, key_principle := none,
                  source := some "law.example.com",
                  url := some "https://law.example.com/case" }]
      ∧ brandRelevant "Zen" c4Hit = false := by
  constructor
  · decide
  · decide

/-- Counterexample to claim C3 as stated: two hits with the same extracted
    name but different statuses; swapping them changes which record the
    first-wins deduplication keeps, so the output sets differ. -/
theorem c3_counterexample :
    ([c3HitReg, c3HitPend] : List SearchHit).Perm [c3HitPend, c3HitReg] ∧
    (extract_trademark_conflicts [c3HitReg, c3HitPend] "Zen").toFinset
      ≠ (extract_trademark_conflicts [c3HitPend, c3HitReg] "Zen").toFinset := by
  constructor
  · decide
  · decide

/-- Claim C3, amended: permuting the hit list preserves the output set of
    each extractor provided the lower-cased dedup keys are pairwise
    distinct, the common-law extractor yields at most ten keys, the
    precedent extractor at most five, and every URL is well-formed for the
    precedent source field; without distinct keys the first hit with a key
    wins and the surviving record can change. -/
theorem c3_amended (hits₁ hits₂ : List SearchHit) (brand_name industry : String)
    (hperm : hits₁.Perm hits₂)
    (htm : ((hits₁.filterMap (tmKey brand_name)).map pyLower).Nodup)
    (hco : ((hits₁.filterMap (coKey brand_name)).map pyLower).Nodup)
    (hcl : ((hits₁.filterMap (clKey brand_name)).map pyLower).Nodup)
    (hcln : ((hits₁.filterMap (clKey brand_name)).map pyLower).length ≤ 10)
    (hlp : ((hits₁.filterMap lpKey).map pyLower).Nodup)
    (hlpn : ((hits₁.filterMap lpKey).map pyLower).length ≤ 5)
    (hurl : ∀ h ∈ hits₁, (urlSource h.url).toOption.isSome = true) :
    (extract_trademark_conflicts hits₁ brand_name).toFinset
        = (extract_trademark_conflicts hits₂ brand_name).toFinset ∧
    (extract_company_conflicts hits₁ brand_name).toFinset
        = (extract_company_conflicts hits₂ brand_name).toFinset ∧
    (extract_common_law_conflicts hits₁ brand_name industry).toFinset
        = (extract_common_law_conflicts hits₂ brand_name industry).toFinset ∧
    Except.map List.toFinset (extract_legal_precedents hits₁)
        = Except.map List.toFinset (extract_legal_precedents hits₂) := by
  have hpermKeys : ∀ key : SearchHit → Option String,
      ((hits₁.filterMap key).map pyLower).Perm ((hits₂.filterMap key).map pyLower) :=
    fun key => (hperm.filterMap key).map pyLower
  have hfresh : ∀ (key : SearchHit → Option String) (hits : List SearchHit),
      ∀ k ∈ (hits.filterMap key).map pyLower, k ∉ ([] : List String) :=
    fun _ _ k _ => List.not_mem_nil k
  refine ⟨?_, ?_, ?_, ?_⟩
  · have e₁ : extract_trademark_conflicts hits₁ brand_name
        = hits₁.filterMap fun h => (tmKey brand_name h).map (tmMk brand_name h) := by
      unfold extract_trademark_conflicts
      rw [scanDedup_eq_append _ _ hits₁ [] [] htm (hfresh _ _)]
      simp
    have e₂ : extract_trademark_conflicts hits₂ brand_name
        = hits₂.filterMap fun h => (tmKey brand_name h).map (tmMk brand_name h) := by
      unfold extract_trademark_conflicts
      rw [scanDedup_eq_append _ _ hits₂ [] []
            ((hpermKeys (tmKey brand_name)).nodup htm) (hfresh _ _)]
      simp
    rw [e₁, e₂]
    exact List.toFinset_eq_of_perm _ _ (hperm.filterMap _)
  · have e₁ : extract_company_conflicts hits₁ brand_name
        = hits₁.filterMap fun h => (coKey brand_name h).map (coMk brand_name h) := by
      unfold extract_company_conflicts
      rw [scanDedup_eq_append _ _ hits₁ [] [] hco (hfresh _ _)]
      simp
    have e₂ : extract_company_conflicts hits₂ brand_name
        = hits₂.filterMap fun h => (coKey brand_name h).map (coMk brand_name h) := by
      unfold extract_company_conflicts
      rw [scanDedup_eq_append _ _ hits₂ [] []
            ((hpermKeys (coKey brand_name)).nodup hco) (hfresh _ _)]
      simp
    rw [e₁, e₂]
    exact List.toFinset_eq_of_perm _ _ (hperm.filterMap _)
  · have e₁ : extract_common_law_conflicts hits₁ brand_name industry
        = hits₁.filterMap fun h => (clKey brand_name h).map (clMk industry h) := by
      unfold extract_common_law_conflicts
      rw [scanDedup_eq_append _ _ hits₁ [] [] hcl (hfresh _ _)]
      simp only [List.nil_append]
      apply List.take_of_length_le
      rw [emit_length]
      exact hcln
    have e₂ : extract_common_law_conflicts hits₂ brand_name industry
        = hits₂.filterMap fun h => (clKey brand_name h).map (clMk industry h) := by
      unfold extract_common_law_conflicts
      rw [scanDedup_eq_append _ _ hits₂ [] []
            ((hpermKeys (clKey brand_name)).nodup hcl) (hfresh _ _)]
      simp only [List.nil_append]
      apply List.take_of_length_le
      rw [emit_length]
      rw [← (hpermKeys (clKey brand_name)).length_eq]
      exact hcln
    rw [e₁, e₂]
    exact List.toFinset_eq_of_perm _ _ (hperm.filterMap _)
  · have hok₁ : ∀ h ∈ hits₁, ∀ n, lpKey h = some n → ∃ r, lpMk h n = .ok r := by
      intro h hh n _
      have hu := hurl h hh
      cases he : urlSource h.url with
      | error e => rw [he] at hu; simp [Except.toOption] at hu
      | ok s =>
          cases hm : lpMk h n with
          | error e =>
              exfalso
              unfold lpMk at hm
              rw [he] at hm
              simp at hm
          | ok r => exact ⟨r, rfl⟩
    have hok₂ : ∀ h ∈ hits₂, ∀ n, lpKey h = some n → ∃ r, lpMk h n = .ok r :=
      fun h hh => hok₁ h (hperm.mem_iff.mpr hh)
    have e₁ : extract_legal_precedents hits₁
        = .ok (hits₁.filterMap fun h => (lpKey h).bind fun n => (lpMk h n).toOption) := by
      unfold extract_legal_precedents
      rw [scanDedupE_eq_ok _ _ hits₁ [] [] hlp (hfresh _ _) hok₁]
      simp only [List.nil_append, Except.map]
      rw [List.take_of_length_le]
      rw [emitE_length _ _ hits₁ hok₁]
      exact hlpn
    have e₂ : extract_legal_precedents hits₂
        = .ok (hits₂.filterMap fun h => (lpKey h).bind fun n => (lpMk h n).toOption) := by
      unfold extract_legal_precedents
      rw [scanDedupE_eq_ok _ _ hits₂ [] [] ((hpermKeys lpKey).nodup hlp) (hfresh _ _) hok₂]
      simp only [List.nil_append, Except.map]
      rw [List.take_of_length_le]
      rw [emitE_length _ _ hits₂ hok₂]
      rw [← (hpermKeys lpKey).length_eq]
      exact hlpn
    rw [e₁, e₂]
    simp only [Except.map]
    exact congrArg Except.ok (List.toFinset_eq_of_perm _ _ (hperm.filterMap _))

/-- Witness for claim C3 at two hits with distinct quoted names, swapped. -/
theorem c3_amended_witness :
    (([c3WitA, c3WitB] : List SearchHit).Perm [c3WitB, c3WitA]
      ∧ ((([c3WitA, c3WitB] : List SearchHit).filterMap (tmKey "Zen")).map pyLower).Nodup
      ∧ ((([c3WitA, c3WitB] : List SearchHit).filterMap (coKey "Zen")).map pyLower).Nodup
      ∧ ((([c3WitA, c3WitB] : List SearchHit).filterMap (clKey "Zen")).map pyLower).Nodup
      ∧ ((([c3WitA, c3WitB] : List SearchHit).filterMap (clKey "Zen")).map pyLower).length ≤ 10
      ∧ ((([c3WitA, c3WitB] : List SearchHit).filterMap lpKey).map pyLower).Nodup
      ∧ ((([c3WitA, c3WitB] : List SearchHit).filterMap lpKey).map pyLower).length ≤ 5
      ∧ (∀ h ∈ ([c3WitA, c3WitB] : List SearchHit),
          (urlSource h.url).toOption.isSome = true)) ∧
    (extract_trademark_conflicts [c3WitA, c3WitB] "Zen").toFinset
        = (extract_trademark_conflicts [c3WitB, c3WitA] "Zen").toFinset ∧
    (extract_company_conflicts [c3WitA, c3WitB] "Zen").toFinset
        = (extract_company_conflicts [c3WitB, c3WitA] "Zen").toFinset ∧
    (extract_common_law_conflicts [c3WitA, c3WitB] "Zen" "fashion").toFinset
        = (extract_common_law_conflicts [c3WitB, c3WitA] "Zen" "fashion").toFinset ∧
    Except.map List.toFinset (extract_legal_precedents [c3WitA, c3WitB])
        = Except.map List.toFinset (extract_legal_precedents [c3WitB, c3WitA]) :=
  ⟨⟨by decide, by decide, by decide, by decide, by decide, by decide, by decide, by decide⟩,
    c3_amended [c3WitA, c3WitB] [c3WitB, c3WitA] "Zen" "fashion"
      (by decide) (by decide) (by decide) (by decide) (by decide)
      (by decide) (by decide) (by decide)⟩
